import Mathlib

/-!
Shallow embedding of the per-message Response Run of the
`ai-chatting-backend` repository, centred on `GeminiResponseHandler`
(source file `src/unnamed/part_000`, the Gemini response handler class)
and its use by `OpenAIAgent` (`src/src/agents/openai/OpenAIAgent.ts`).

The handler consumes a generation stream chunk by chunk, accumulates
text, throttles outbound `partialUpdateMessage` calls, dispatches
`web_search` tool calls, reacts to `ai_indicator.stop` events and stream
faults, and guards teardown with an `is_done` flag.

The embedding is trace-based: every externally visible action
(transport call, event send, unsubscription, release callback, provider
invocation) is recorded as an `Effect`; the mutable fields of the class
become the record `HandlerState`.  JavaScript dynamic values appearing
as tool-call arguments are modelled by `JsValue`.
-/

namespace AIChat

/-- Model of the JavaScript values that can appear as a tool call's
`args` payload: `null`, `undefined`, booleans, (integer) numbers,
strings and plain objects.  Arrays and non-integer numbers do not occur
in the claims under study and are omitted from the model. -/
inductive JsValue where
  | vNull : JsValue
  | vUndefined : JsValue
  | vBool : Bool → JsValue
  | vNum : Int → JsValue
  | vStr : String → JsValue
  | vObj : List (String × JsValue) → JsValue

/-- JavaScript `typeof` operator restricted to `JsValue`; note that
`typeof null` is `"object"` in JavaScript. -/
def typeofJs : JsValue → String
  | JsValue.vNull => "object"
  | JsValue.vUndefined => "undefined"
  | JsValue.vBool _ => "boolean"
  | JsValue.vNum _ => "number"
  | JsValue.vStr _ => "string"
  | JsValue.vObj _ => "object"

/-- JavaScript truthiness of a value, as used by the guard
`call.args` on line 84 of the handler. -/
def truthy : JsValue → Bool
  | JsValue.vNull => false
  | JsValue.vUndefined => false
  | JsValue.vBool b => b
  | JsValue.vNum n => n != 0
  | JsValue.vStr s => s != ""
  | JsValue.vObj _ => true

/-- JavaScript `String(x)` coercion on the modelled values; objects
coerce to `"[object Object]"`. -/
def jsToString : JsValue → String
  | JsValue.vNull => "null"
  | JsValue.vUndefined => "undefined"
  | JsValue.vBool true => "true"
  | JsValue.vBool false => "false"
  | JsValue.vNum n => toString n
  | JsValue.vStr s => s
  | JsValue.vObj _ => "[object Object]"

/-- Escape of one character inside a JSON string literal, as performed
by `JSON.stringify`. -/
def escChar (c : Char) : String :=
  if c = '"' then "\\\""
  else if c = '\\' then "\\\\"
  else if c = '\n' then "\\n"
  else if c = '\t' then "\\t"
  else if c = '\r' then "\\r"
  else String.singleton c

/-- Escape of a whole string for inclusion in a JSON string literal. -/
def escapeJson (s : String) : String :=
  s.data.foldl (fun acc c => acc ++ escChar c) ""

mutual

/-- Model of `JSON.stringify` on the modelled values.  At its only call
site (line 96 of the handler) the argument is known to be a non-null
object; the `vUndefined` case is unreachable there and mirrors the
JavaScript convention only loosely. -/
def jsonStringify : JsValue → String
  | JsValue.vNull => "null"
  | JsValue.vUndefined => "undefined"
  | JsValue.vBool true => "true"
  | JsValue.vBool false => "false"
  | JsValue.vNum n => toString n
  | JsValue.vStr s => "\"" ++ escapeJson s ++ "\""
  | JsValue.vObj fields => "\x7b" ++ stringifyFields fields true ++ "\x7d"

/-- Serialization of an object's fields; fields bound to `undefined`
are omitted, as `JSON.stringify` does.  The boolean tracks whether the
next emitted field is the first one (controls the comma). -/
def stringifyFields : List (String × JsValue) → Bool → String
  | [], _ => ""
  | (_, JsValue.vUndefined) :: rest, first => stringifyFields rest first
  | (k, v) :: rest, first =>
      (if first then "" else ",") ++ "\"" ++ escapeJson k ++ "\":" ++
        jsonStringify v ++ stringifyFields rest false

end

/-- Property access `obj.query` on a modelled value: the bound value if
present, `undefined` otherwise (also on non-objects). -/
def getFieldD : JsValue → String → JsValue
  | JsValue.vObj fields, k => (fields.lookup k).getD JsValue.vUndefined
  | _, _ => JsValue.vUndefined

/-- Query-string extraction for a `web_search` call, lines 87 to 101 of
the handler: if `typeof call.args === "object" && call.args !== null`
then use `args.query` when it is a string, coerce it with `String` when
it is neither `null` nor `undefined` (JavaScript loose `!= null`), and
otherwise fall back to `JSON.stringify(call.args)`; non-object payloads
are coerced with `String`. -/
def extractQuery (args : JsValue) : String :=
  if typeofJs args == "object" && !(args matches JsValue.vNull) then
    match getFieldD args "query" with
    | JsValue.vStr s => s
    | JsValue.vNull => jsonStringify args
    | JsValue.vUndefined => jsonStringify args
    | q => jsToString q
  else
    jsToString args

/-- A backend-issued function call: `name` and `args` may each be
absent (`name` missing is modelled by `none`, `args` missing by
`vUndefined`, both falsy). -/
structure FunctionCall where
  name : Option String
  args : JsValue

/-- The guard on line 84 of the handler:
`call.name === "web_search" && call.args` (truthiness of `args`). -/
def webSearchGuard (c : FunctionCall) : Bool :=
  c.name == some "web_search" && truthy c.args

/-- One element of the generation stream: optional tool calls, an
optional text fragment (`""` models an absent or empty `chunk.text`,
both falsy), and the wall-clock value `Date.now()` returns while the
chunk's text is processed. -/
structure Chunk where
  functionCalls : List FunctionCall
  text : String
  now : Nat

/-- A JavaScript `Error` as observed by `handleError`; its `message`
may be absent (the code guards with `?? "Error generating the message"`). -/
structure JsError where
  message : Option String

/-- The mutable fields of `GeminiResponseHandler`. -/
structure HandlerState where
  message_text : String
  chunk_counter : Nat
  is_done : Bool
  last_update_time : Nat

/-- Initial field values set by the class declaration. -/
def initState : HandlerState :=
  { message_text := "", chunk_counter := 0, is_done := false, last_update_time := 0 }

/-- Externally visible actions of the handler, in the order they are
performed.  `flushUpdate` is the throttled `partialUpdateMessage` inside
the loop (with the `Date.now()` value gating it), `finalUpdate` the
unconditional one after the loop, `errorUpdate` the one in
`handleError`; `clearEvent` is `sendEvent ai_indicator.clear`;
`statusUpdate` is `sendEvent ai_indicator.update` with the given
`ai_state`; `offStop` is the `chatClient.off("ai_indicator.stop", ...)`
unsubscription; `releaseCb` is the controller-supplied `onDispose`
callback; `providerCall` is an invocation of `performWebSearch`. -/
inductive Effect where
  | flushUpdate : String → Nat → Effect
  | finalUpdate : String → Effect
  | errorUpdate : String → Effect
  | clearEvent : Effect
  | statusUpdate : String → Effect
  | offStop : Effect
  | releaseCb : Effect
  | providerCall : String → Effect
deriving DecidableEq

/-- The opaque tool provider: the composite of `performWebSearch` and
the `JSON.parse` of its result, which either produces a structured
payload or raises a fault (modelled by `Except.error`). -/
def Provider : Type := String → Except Unit JsValue

/-- Outcome recorded for one dispatched call: the provider's payload,
or on a caught fault the structured marker
`\x7berror: "failed to call tool"\x7d` (lines 110 to 116). -/
def resToJson : Except Unit JsValue → JsValue
  | Except.ok v => v
  | Except.error _ => JsValue.vObj [("error", JsValue.vStr "failed to call tool")]

/-- One entry pushed onto `toolOutputs`: the originating call and the
`output.response` value (the `output.name` field is the constant
`"web_search"` and is not modelled separately). -/
structure ToolOutput where
  functionCall : FunctionCall
  response : JsValue

/-- The per-call loop of `handleFunctionCalls` (lines 82 to 118): calls
passing the `web_search`-with-truthy-args guard are dispatched in order;
all other calls are skipped and produce no output. -/
def dispatchCalls (prov : Provider) : List FunctionCall → List Effect × List ToolOutput
  | [] => ([], [])
  | call :: rest =>
      if webSearchGuard call then
        (Effect.providerCall (extractQuery call.args) :: (dispatchCalls prov rest).1,
         { functionCall := call,
           response := resToJson (prov (extractQuery call.args)) } :: (dispatchCalls prov rest).2)
      else
        dispatchCalls prov rest

/-- `handleFunctionCalls` (lines 68 to 121): first sends one
`AI_STATE_EXTERNAL_SOURCES` status event for the owning message, then
dispatches the chunk's calls. -/
def handleFunctionCalls (prov : Provider) (calls : List FunctionCall) :
    List Effect × List ToolOutput :=
  (Effect.statusUpdate "AI_STATE_EXTERNAL_SOURCES" :: (dispatchCalls prov calls).1,
   (dispatchCalls prov calls).2)

/-- `dispose` (lines 123 to 130): a no-op once `is_done` is set;
otherwise sets `is_done`, unsubscribes the stop handler and invokes the
release callback. -/
def disposeStep (st : HandlerState) : HandlerState × List Effect :=
  if st.is_done then (st, [])
  else ({ st with is_done := true }, [Effect.offStop, Effect.releaseCb])

/-- `handleStopGenerating` (lines 132 to 145) of the handler owning
message id `mid`, receiving a stop event carrying `event_message_id`:
ignored when already disposed or when the ids differ; otherwise sends
`ai_indicator.clear` and disposes. -/
def handleStopGenerating (mid : String) (st : HandlerState)
    (event_message_id : String) : HandlerState × List Effect :=
  if st.is_done || event_message_id != mid then (st, [])
  else
    ((disposeStep st).1, Effect.clearEvent :: (disposeStep st).2)

/-- `handleError` (lines 147 to 164): a no-op once disposed; otherwise
sends an `AI_STATE_ERROR` status event, overwrites the message text with
`Error: ` followed by the fault's message (or the fixed fallback), and
disposes. -/
def handleError (st : HandlerState) (e : JsError) : HandlerState × List Effect :=
  if st.is_done then (st, [])
  else
    ((disposeStep st).1, Effect.statusUpdate "AI_STATE_ERROR" ::
      Effect.errorUpdate ("Error: " ++ (e.message.getD "Error generating the message")) ::
      (disposeStep st).2)

/-- One iteration of the `for await` loop of `run` (lines 28 to 48) on
a chunk: dispatch its tool calls first (their outputs are discarded by
`run`), then, if it carries text, append the text, flush the full
accumulated text when strictly more than 1000ms have elapsed since
`last_update_time`, and bump `chunk_counter`. -/
def processChunk (prov : Provider) (st : HandlerState) (c : Chunk) :
    HandlerState × List Effect :=
  let toolEffs :=
    if c.functionCalls.length > 0 then (handleFunctionCalls prov c.functionCalls).1 else []
  if c.text != "" then
    let newText := st.message_text ++ c.text
    if st.last_update_time + 1000 < c.now then
      ({ st with message_text := newText, last_update_time := c.now,
                 chunk_counter := st.chunk_counter + 1 },
       toolEffs ++ [Effect.flushUpdate newText c.now])
    else
      ({ st with message_text := newText, chunk_counter := st.chunk_counter + 1 }, toolEffs)
  else
    (st, toolEffs)

/-- An occurrence the run reacts to while draining the stream: either
the arrival of the next chunk, or the delivery of an
`ai_indicator.stop` event between two loop iterations (the JavaScript
event loop runs the stop handler only while `run` is suspended at an
`await`). -/
inductive StreamItem where
  | chunk : Chunk → StreamItem
  | stop : String → StreamItem

/-- Dispatch of one `StreamItem` to the corresponding handler code. -/
def stepItem (prov : Provider) (mid : String) (st : HandlerState) :
    StreamItem → HandlerState × List Effect
  | StreamItem.chunk c => processChunk prov st c
  | StreamItem.stop emid => handleStopGenerating mid st emid

/-- Sequential processing of a list of stream items, accumulating the
effect trace. -/
def runItems (prov : Provider) (mid : String) :
    HandlerState → List StreamItem → HandlerState × List Effect
  | st, [] => (st, [])
  | st, it :: rest =>
      ((runItems prov mid (stepItem prov mid st it).1 rest).1,
       (stepItem prov mid st it).2 ++ (runItems prov mid (stepItem prov mid st it).1 rest).2)

/-- A whole execution of `run` (lines 21 to 66) on the handler owning
message id `mid`: the loop processes `items`; then either pulling the
next chunk faults (`fault = some e`, the `catch` branch runs
`handleError`) or the stream is exhausted (`fault = none`, the final
unconditional flush and the `ai_indicator.clear` send run); the
`finally` branch always calls `dispose`. -/
def runFull (prov : Provider) (mid : String) (items : List StreamItem)
    (fault : Option JsError) : HandlerState × List Effect :=
  let st := (runItems prov mid initState items).1
  let tr := (runItems prov mid initState items).2
  match fault with
  | some e =>
      ((disposeStep (handleError st e).1).1,
       tr ++ (handleError st e).2 ++ (disposeStep (handleError st e).1).2)
  | none =>
      ((disposeStep st).1,
       tr ++ [Effect.finalUpdate st.message_text, Effect.clearEvent] ++ (disposeStep st).2)

/-- The text carried by an outbound `partialUpdateMessage` call, at any
of its three call sites; `none` for every other effect. -/
def updateText : Effect → Option String
  | Effect.flushUpdate t _ => some t
  | Effect.finalUpdate t => some t
  | Effect.errorUpdate t => some t
  | _ => none

/-- The send time of a throttled in-loop flush; `none` for every other
effect (in particular for the final and error updates). -/
def flushTime : Effect → Option Nat
  | Effect.flushUpdate _ t => some t
  | _ => none

/-- Concatenation, in stream order, of every text fragment carried by a
chunk sequence. -/
def concatTexts : List Chunk → String
  | [] => ""
  | c :: cs => c.text ++ concatTexts cs

/-- One text being a prefix-extension of another: the latter is the
former with a (possibly empty) suffix appended, so in particular it is
at least as long. -/
def textExtends (a b : String) : Prop :=
  a.length ≤ b.length ∧ ∃ t, b = a ++ t

/-- Indicator of the disposal flag, used to count teardown effects. -/
def indDone (st : HandlerState) : Nat :=
  if st.is_done then 1 else 0

/-- A provider that always succeeds with `null`; used to instantiate
universally quantified statements on concrete inputs. -/
def okProv : Provider := fun _ => Except.ok JsValue.vNull

/-- A provider that always raises a fault; used to instantiate
universally quantified statements on concrete inputs. -/
def errProv : Provider := fun _ => Except.error ()

/-! Helper lemmas about the shapes of effect traces. -/

/-- Every effect emitted by the dispatch loop is a provider invocation. -/
theorem dispatchCalls_effs_shape (prov : Provider) (calls : List FunctionCall) :
    ∀ e ∈ (dispatchCalls prov calls).1, ∃ q, e = Effect.providerCall q := by
  induction calls with
  | nil => intro e he; simp [dispatchCalls] at he
  | cons call rest ih =>
      intro e he
      by_cases hg : webSearchGuard call
      · simp only [dispatchCalls, if_pos hg, List.mem_cons] at he
        rcases he with h | h
        · exact ⟨extractQuery call.args, h⟩
        · exact ih e h
      · simp only [dispatchCalls, if_neg hg] at he
        exact ih e he

/-- Every effect emitted while processing one chunk is a provider
invocation, the external-sources status event, or a throttled flush. -/
theorem processChunk_effs_shape (prov : Provider) (st : HandlerState) (c : Chunk) :
    ∀ e ∈ (processChunk prov st c).2,
      (∃ q, e = Effect.providerCall q) ∨
      e = Effect.statusUpdate "AI_STATE_EXTERNAL_SOURCES" ∨
      (∃ t n, e = Effect.flushUpdate t n) := by
  intro e he
  have htool : ∀ x ∈ (if c.functionCalls.length > 0 then
      (handleFunctionCalls prov c.functionCalls).1 else []),
      (∃ q, x = Effect.providerCall q) ∨ x = Effect.statusUpdate "AI_STATE_EXTERNAL_SOURCES" := by
    intro x hx
    by_cases hc : c.functionCalls.length > 0
    · rw [if_pos hc] at hx
      simp only [handleFunctionCalls, List.mem_cons] at hx
      rcases hx with h | h
      · exact Or.inr h
      · exact Or.inl (dispatchCalls_effs_shape prov c.functionCalls x h)
    · rw [if_neg hc] at hx; simp at hx
  by_cases h1 : c.text != ""
  · by_cases h2 : st.last_update_time + 1000 < c.now
    · simp only [processChunk, if_pos h1, if_pos h2, List.mem_append, List.mem_singleton] at he
      rcases he with h | h
      · rcases htool e h with h' | h'
        · exact Or.inl h'
        · exact Or.inr (Or.inl h')
      · exact Or.inr (Or.inr ⟨st.message_text ++ c.text, c.now, h⟩)
    · simp only [processChunk, if_pos h1, if_neg h2] at he
      rcases htool e he with h' | h'
      · exact Or.inl h'
      · exact Or.inr (Or.inl h')
  · simp only [processChunk, if_neg h1] at he
    rcases htool e he with h' | h'
    · exact Or.inl h'
    · exact Or.inr (Or.inl h')

/-- Every effect emitted by a chunk-only run segment is a provider
invocation, the external-sources status event, or a throttled flush. -/
theorem runChunks_effs_shape (prov : Provider) (mid : String) (cs : List Chunk) :
    ∀ st, ∀ e ∈ (runItems prov mid st (cs.map StreamItem.chunk)).2,
      (∃ q, e = Effect.providerCall q) ∨
      e = Effect.statusUpdate "AI_STATE_EXTERNAL_SOURCES" ∨
      (∃ t n, e = Effect.flushUpdate t n) := by
  induction cs with
  | nil => intro st e he; simp [runItems] at he
  | cons c rest ih =>
      intro st e he
      simp only [List.map_cons, runItems, stepItem, List.mem_append] at he
      rcases he with h | h
      · exact processChunk_effs_shape prov st c e h
      · exact ih _ e h

/-! Helper lemmas about state evolution on chunk-only segments. -/

/-- Processing a chunk never changes the disposal flag. -/
theorem processChunk_is_done (prov : Provider) (st : HandlerState) (c : Chunk) :
    (processChunk prov st c).1.is_done = st.is_done := by
  by_cases h1 : c.text = ""
  · simp [processChunk, h1]
  · by_cases h2 : st.last_update_time + 1000 < c.now
    · simp [processChunk, h1, h2]
    · simp [processChunk, h1, h2]

/-- Processing a chunk appends exactly its text fragment to the
accumulated text. -/
theorem processChunk_message_text (prov : Provider) (st : HandlerState) (c : Chunk) :
    (processChunk prov st c).1.message_text = st.message_text ++ c.text := by
  by_cases h1 : c.text = ""
  · simp [processChunk, h1]
  · by_cases h2 : st.last_update_time + 1000 < c.now
    · simp [processChunk, h1, h2]
    · simp [processChunk, h1, h2]

/-- A chunk-only run segment never changes the disposal flag. -/
theorem runChunks_is_done (prov : Provider) (mid : String) (cs : List Chunk) :
    ∀ st, (runItems prov mid st (cs.map StreamItem.chunk)).1.is_done = st.is_done := by
  induction cs with
  | nil => intro st; simp [runItems]
  | cons c rest ih =>
      intro st
      simp only [List.map_cons, runItems, stepItem]
      rw [ih, processChunk_is_done]

/-- Across a chunk-only run segment the accumulated text grows by the
concatenation, in stream order, of the chunks' text fragments. -/
theorem runChunks_message_text (prov : Provider) (mid : String) (cs : List Chunk) :
    ∀ st, (runItems prov mid st (cs.map StreamItem.chunk)).1.message_text =
      st.message_text ++ concatTexts cs := by
  induction cs with
  | nil => intro st; simp [runItems, concatTexts]
  | cons c rest ih =>
      intro st
      simp only [List.map_cons, runItems, stepItem, concatTexts]
      rw [ih, processChunk_message_text, String.append_assoc]

/-! Helper lemmas relating traces to the update and flush projections. -/

/-- Every tool-dispatch effect of a chunk is the external-sources
status event or a provider invocation. -/
theorem toolEffs_shape (prov : Provider) (calls : List FunctionCall)
    (p : Prop) [Decidable p] :
    ∀ e ∈ (if p then (handleFunctionCalls prov calls).1 else []),
      e = Effect.statusUpdate "AI_STATE_EXTERNAL_SOURCES" ∨ ∃ q, e = Effect.providerCall q := by
  intro e he
  by_cases hb : p
  · rw [if_pos hb] at he
    simp only [handleFunctionCalls, List.mem_cons] at he
    rcases he with h | h
    · exact Or.inl h
    · exact Or.inr (dispatchCalls_effs_shape prov calls e h)
  · rw [if_neg hb] at he; simp at he

/-- Tool-dispatch effects carry no outbound message text. -/
theorem toolEffs_updateText (prov : Provider) (calls : List FunctionCall)
    (p : Prop) [Decidable p] :
    ((if p then (handleFunctionCalls prov calls).1 else []).filterMap updateText) = [] := by
  rw [List.filterMap_eq_nil_iff]
  intro e he
  rcases toolEffs_shape prov calls p e he with h | ⟨q, h⟩ <;> rw [h] <;> rfl

/-- Tool-dispatch effects carry no flush timestamp. -/
theorem toolEffs_flushTime (prov : Provider) (calls : List FunctionCall)
    (p : Prop) [Decidable p] :
    ((if p then (handleFunctionCalls prov calls).1 else []).filterMap flushTime) = [] := by
  rw [List.filterMap_eq_nil_iff]
  intro e he
  rcases toolEffs_shape prov calls p e he with h | ⟨q, h⟩ <;> rw [h] <;> rfl

/-! Helper lemmas: the run's state and trace do not depend on the
provider's answers (outputs are discarded by `run`). -/

/-- The effect component of the dispatch loop is provider-independent. -/
theorem dispatchCalls_effs_prov (prov prov' : Provider) (calls : List FunctionCall) :
    (dispatchCalls prov calls).1 = (dispatchCalls prov' calls).1 := by
  induction calls with
  | nil => rfl
  | cons call rest ih =>
      by_cases hg : webSearchGuard call
      · simp only [dispatchCalls, if_pos hg, ih]
      · simp only [dispatchCalls, if_neg hg, ih]

/-- Chunk processing is provider-independent. -/
theorem processChunk_prov (prov prov' : Provider) (st : HandlerState) (c : Chunk) :
    processChunk prov st c = processChunk prov' st c := by
  have h : (if c.functionCalls.length > 0 then (handleFunctionCalls prov c.functionCalls).1 else [])
      = (if c.functionCalls.length > 0 then (handleFunctionCalls prov' c.functionCalls).1 else []) := by
    by_cases hb : c.functionCalls.length > 0
    · rw [if_pos hb, if_pos hb]
      simp only [handleFunctionCalls, dispatchCalls_effs_prov prov prov']
    · rw [if_neg hb, if_neg hb]
  simp only [processChunk, h]

/-- A whole run is provider-independent: its final state and its full
effect trace are the same for any two providers. -/
theorem runItems_prov (prov prov' : Provider) (mid : String) (items : List StreamItem) :
    ∀ st, runItems prov mid st items = runItems prov' mid st items := by
  induction items with
  | nil => intro st; rfl
  | cons it rest ih =>
      intro st
      have hstep : stepItem prov mid st it = stepItem prov' mid st it := by
        cases it with
        | chunk c => simp only [stepItem, processChunk_prov prov prov']
        | stop emid => rfl
      simp only [runItems, hstep, ih]

/-! Helper lemmas counting teardown effects via the disposal flag. -/

/-- Disposal always leaves the flag set, and performs the unsubscribe
and release effects exactly when the flag was not yet set. -/
theorem disposeStep_count (a : Effect)
    (ha : a = Effect.offStop ∨ a = Effect.releaseCb) (st : HandlerState) :
    (disposeStep st).1.is_done = true ∧
    (disposeStep st).2.count a + indDone st = 1 := by
  by_cases h : st.is_done
  · simp [disposeStep, h, indDone]
  · rcases ha with h' | h' <;>
      simp [disposeStep, h, indDone, h', List.count_cons]

/-- Receipt of a stop event is ignored when the run is already disposed
or when the event targets another message. -/
theorem handleStopGenerating_noop (mid : String) (st : HandlerState) (emid : String)
    (h : st.is_done = true ∨ emid ≠ mid) :
    handleStopGenerating mid st emid = (st, []) := by
  have hc : (st.is_done || emid != mid) = true := by
    rcases h with h | h
    · rw [h]; rfl
    · simp [h]
  simp [handleStopGenerating, hc]

/-- Receipt of a matching stop event on a live run sends the clear
event and disposes at once. -/
theorem handleStopGenerating_fires (mid : String) (st : HandlerState) (emid : String)
    (h1 : st.is_done = false) (h2 : emid = mid) :
    handleStopGenerating mid st emid =
      ({ st with is_done := true },
       [Effect.clearEvent, Effect.offStop, Effect.releaseCb]) := by
  have hc : (st.is_done || emid != mid) = false := by rw [h1, h2]; simp
  simp [handleStopGenerating, hc, disposeStep, h1, h2]

/-- Counting invariant for one stream item: the teardown effects
emitted equal the change of the disposal indicator. -/
theorem stepItem_count (prov : Provider) (mid : String) (a : Effect)
    (ha : a = Effect.offStop ∨ a = Effect.releaseCb) (st : HandlerState) (it : StreamItem) :
    (stepItem prov mid st it).2.count a + indDone st = indDone (stepItem prov mid st it).1 := by
  cases it with
  | chunk c =>
      have hz : (stepItem prov mid st (StreamItem.chunk c)).2.count a = 0 := by
        rw [List.count_eq_zero]
        intro hmem
        rcases processChunk_effs_shape prov st c a hmem with ⟨q, hq⟩ | hq | ⟨t, n, hq⟩ <;>
          rcases ha with h' | h' <;> rw [h'] at hq <;> cases hq
      rw [hz]
      simp only [stepItem, indDone, processChunk_is_done]
      omega
  | stop emid =>
      by_cases hno : st.is_done = true ∨ emid ≠ mid
      · rw [stepItem, handleStopGenerating_noop mid st emid hno]
        simp
      · push_neg at hno
        obtain ⟨hd, hm⟩ := hno
        have hd' : st.is_done = false := by
          revert hd; cases st.is_done <;> simp
        rw [stepItem, handleStopGenerating_fires mid st emid hd' hm]
        rcases ha with h' | h' <;> subst h' <;> simp [indDone, hd']

/-- The update texts emitted while processing one chunk: the newly
accumulated text when the throttle admits a flush, nothing otherwise. -/
theorem processChunk_updateTexts (prov : Provider) (st : HandlerState) (c : Chunk) :
    (processChunk prov st c).2.filterMap updateText =
      if c.text ≠ "" ∧ st.last_update_time + 1000 < c.now
      then [st.message_text ++ c.text] else [] := by
  by_cases h1 : c.text = ""
  · rw [if_neg (by simp [h1])]
    simp [processChunk, h1, toolEffs_updateText]
  · by_cases h2 : st.last_update_time + 1000 < c.now
    · rw [if_pos ⟨h1, h2⟩]
      simp [processChunk, h1, h2, toolEffs_updateText, updateText]
    · rw [if_neg (by simp [h2])]
      simp [processChunk, h1, h2, toolEffs_updateText]

/-- The flush timestamps emitted while processing one chunk. -/
theorem processChunk_flushTimes (prov : Provider) (st : HandlerState) (c : Chunk) :
    (processChunk prov st c).2.filterMap flushTime =
      if c.text ≠ "" ∧ st.last_update_time + 1000 < c.now then [c.now] else [] := by
  by_cases h1 : c.text = ""
  · rw [if_neg (by simp [h1])]
    simp [processChunk, h1, toolEffs_flushTime]
  · by_cases h2 : st.last_update_time + 1000 < c.now
    · rw [if_pos ⟨h1, h2⟩]
      simp [processChunk, h1, h2, toolEffs_flushTime, flushTime]
    · rw [if_neg (by simp [h2])]
      simp [processChunk, h1, h2, toolEffs_flushTime]

/-- The throttle timestamp after one chunk: the chunk's clock value on
a flush, unchanged otherwise. -/
theorem processChunk_last_update (prov : Provider) (st : HandlerState) (c : Chunk) :
    (processChunk prov st c).1.last_update_time =
      if c.text ≠ "" ∧ st.last_update_time + 1000 < c.now
      then c.now else st.last_update_time := by
  by_cases h1 : c.text = ""
  · rw [if_neg (by simp [h1])]
    simp [processChunk, h1]
  · by_cases h2 : st.last_update_time + 1000 < c.now
    · rw [if_pos ⟨h1, h2⟩]
      simp [processChunk, h1, h2]
    · rw [if_neg (by simp [h2])]
      simp [processChunk, h1, h2]

/-- Explicit decomposition of a chunk's effect trace: the dispatch
effects (when the chunk carries calls) followed by the throttled flush
(when the chunk carries text and the throttle admits it). -/
theorem processChunk_effects (prov : Provider) (st : HandlerState) (c : Chunk) :
    (processChunk prov st c).2 =
      (if c.functionCalls.length > 0
       then (handleFunctionCalls prov c.functionCalls).1 else []) ++
      (if c.text ≠ "" ∧ st.last_update_time + 1000 < c.now
       then [Effect.flushUpdate (st.message_text ++ c.text) c.now] else []) := by
  by_cases h1 : c.text = ""
  · rw [show (if c.text ≠ "" ∧ st.last_update_time + 1000 < c.now
        then [Effect.flushUpdate (st.message_text ++ c.text) c.now] else []) = ([] : List Effect)
        from if_neg (fun hf => hf.1 h1), List.append_nil]
    simp [processChunk, h1]
  · by_cases h2 : st.last_update_time + 1000 < c.now
    · rw [show (if c.text ≠ "" ∧ st.last_update_time + 1000 < c.now
          then [Effect.flushUpdate (st.message_text ++ c.text) c.now] else []) =
          [Effect.flushUpdate (st.message_text ++ c.text) c.now] from if_pos ⟨h1, h2⟩]
      simp [processChunk, h1, h2]
    · rw [show (if c.text ≠ "" ∧ st.last_update_time + 1000 < c.now
          then [Effect.flushUpdate (st.message_text ++ c.text) c.now] else []) = ([] : List Effect)
          from if_neg (fun hf => h2 hf.2), List.append_nil]
      simp [processChunk, h1, h2]

/-- Prefix extension is transitive. -/
theorem textExtends_trans {a b c : String}
    (h1 : textExtends a b) (h2 : textExtends b c) : textExtends a c := by
  obtain ⟨hl1, t1, ht1⟩ := h1
  obtain ⟨hl2, t2, ht2⟩ := h2
  exact ⟨le_trans hl1 hl2, t1 ++ t2, by rw [ht2, ht1, String.append_assoc]⟩

/-- Prefix extension is reflexive. -/
theorem textExtends_refl (a : String) : textExtends a a :=
  ⟨le_refl _, "", (String.append_empty a).symm⟩

/-- A string extends itself after appending any suffix. -/
theorem textExtends_append (a t : String) : textExtends a (a ++ t) :=
  ⟨by rw [String.length_append]; omega, t, rfl⟩

/-- Replacing the head of a prefix-extension chain by an earlier text
keeps it a chain. -/
theorem chain_head_textExtends {a b : String} {l : List String}
    (hab : textExtends a b) (h : List.Chain' textExtends (b :: l)) :
    List.Chain' textExtends (a :: l) := by
  cases l with
  | nil => exact List.chain'_singleton a
  | cons x xs =>
      rw [List.chain'_cons] at h ⊢
      exact ⟨textExtends_trans hab h.1, h.2⟩

/-- Along a chunk-only segment, the accumulated text before the
segment, every flushed text in order, and the accumulated text after
the segment form a prefix-extension chain. -/
theorem runChunks_text_chain (prov : Provider) (mid : String) (cs : List Chunk) :
    ∀ st, List.Chain' textExtends (st.message_text ::
      ((runItems prov mid st (cs.map StreamItem.chunk)).2.filterMap updateText ++
       [(runItems prov mid st (cs.map StreamItem.chunk)).1.message_text])) := by
  induction cs with
  | nil =>
      intro st
      simp only [List.map_nil, runItems, List.filterMap_nil, List.nil_append]
      exact List.chain'_cons.mpr ⟨textExtends_refl _, List.chain'_singleton _⟩
  | cons c rest ih =>
      intro st
      simp only [List.map_cons, runItems, stepItem, List.filterMap_append,
        processChunk_updateTexts]
      have hmain := ih (processChunk prov st c).1
      rw [processChunk_message_text] at hmain
      by_cases hf : c.text ≠ "" ∧ st.last_update_time + 1000 < c.now
      · rw [if_pos hf]
        simp only [List.cons_append, List.nil_append]
        exact List.chain'_cons.mpr ⟨textExtends_append _ _, hmain⟩
      · rw [if_neg hf]
        simp only [List.nil_append]
        exact chain_head_textExtends (textExtends_append _ _) hmain

/-- Along a chunk-only segment, the throttle timestamp before the
segment followed by the flush times in order is strictly increasing
with gaps above 1000ms. -/
theorem runChunks_time_chain (prov : Provider) (mid : String) (cs : List Chunk) :
    ∀ st, List.Chain' (fun a b => a + 1000 < b) (st.last_update_time ::
      (runItems prov mid st (cs.map StreamItem.chunk)).2.filterMap flushTime) := by
  induction cs with
  | nil =>
      intro st
      simp only [List.map_nil, runItems, List.filterMap_nil]
      exact List.chain'_singleton _
  | cons c rest ih =>
      intro st
      simp only [List.map_cons, runItems, stepItem, List.filterMap_append,
        processChunk_flushTimes]
      have hmain := ih (processChunk prov st c).1
      rw [processChunk_last_update] at hmain
      by_cases hf : c.text ≠ "" ∧ st.last_update_time + 1000 < c.now
      · rw [if_pos hf]
        rw [if_pos hf] at hmain
        simp only [List.cons_append, List.nil_append]
        exact List.chain'_cons.mpr ⟨hf.2, hmain⟩
      · rw [if_neg hf]
        rw [if_neg hf] at hmain
        simp only [List.nil_append]
        exact hmain

/-- Unfolding of a faultless whole run. -/
theorem runFull_none (prov : Provider) (mid : String) (items : List StreamItem) :
    runFull prov mid items none =
      ((disposeStep (runItems prov mid initState items).1).1,
       (runItems prov mid initState items).2 ++
        [Effect.finalUpdate (runItems prov mid initState items).1.message_text,
         Effect.clearEvent] ++
        (disposeStep (runItems prov mid initState items).1).2) := rfl

/-- Unfolding of a run whose stream pull faults after the items. -/
theorem runFull_some (prov : Provider) (mid : String) (items : List StreamItem)
    (e : JsError) :
    runFull prov mid items (some e) =
      ((disposeStep (handleError (runItems prov mid initState items).1 e).1).1,
       (runItems prov mid initState items).2 ++
        (handleError (runItems prov mid initState items).1 e).2 ++
        (disposeStep (handleError (runItems prov mid initState items).1 e).1).2) := rfl

/-- Counting invariant along a whole item sequence. -/
theorem runItems_count (prov : Provider) (mid : String) (a : Effect)
    (ha : a = Effect.offStop ∨ a = Effect.releaseCb) (items : List StreamItem) :
    ∀ st, (runItems prov mid st items).2.count a + indDone st =
      indDone (runItems prov mid st items).1 := by
  induction items with
  | nil => intro st; simp [runItems]
  | cons it rest ih =>
      intro st
      have h1 := stepItem_count prov mid a ha st it
      have h2 := ih (stepItem prov mid st it).1
      simp only [runItems, List.count_append]
      omega

/-- On a faultless chunk-only run the loop segment ends undisposed, so
the terminal disposal performs its effects. -/
theorem runChunks_final_dispose (prov : Provider) (mid : String) (cs : List Chunk) :
    disposeStep (runItems prov mid initState (cs.map StreamItem.chunk)).1 =
      ({ (runItems prov mid initState (cs.map StreamItem.chunk)).1 with is_done := true },
       [Effect.offStop, Effect.releaseCb]) := by
  have hdone : (runItems prov mid initState (cs.map StreamItem.chunk)).1.is_done = false := by
    rw [runChunks_is_done]; rfl
  simp [disposeStep, hdone]

/-- Fault handling always leaves the flag set, and performs the
unsubscribe and release effects exactly when the flag was not yet
set. -/
theorem handleError_count (a : Effect)
    (ha : a = Effect.offStop ∨ a = Effect.releaseCb) (st : HandlerState) (e : JsError) :
    (handleError st e).1.is_done = true ∧
    (handleError st e).2.count a + indDone st = 1 := by
  by_cases h : st.is_done
  · simp [handleError, h, indDone]
  · rcases ha with h' | h' <;> subst h' <;>
      simp [handleError, disposeStep, h, indDone, List.count_cons, beq_iff_eq]

/-! The claims. -/

/-- C1: for every run — any interleaving of chunks and stop-event
deliveries, ending in normal stream completion or in a stream fault —
the side effects of disposal (unsubscribing the stop handler, invoking
the controller-supplied release callback) occur exactly once in the
run's whole effect trace; the run ends disposed, and once disposed both
a further `dispose` call and a further stop delivery are no-ops that
leave the state unchanged. -/
theorem claim_C1_idempotent_disposal (prov : Provider) (mid : String)
    (items : List StreamItem) (fault : Option JsError) :
    (runFull prov mid items fault).2.count Effect.offStop = 1 ∧
    (runFull prov mid items fault).2.count Effect.releaseCb = 1 ∧
    (runFull prov mid items fault).1.is_done = true ∧
    (∀ st : HandlerState, st.is_done = true → disposeStep st = (st, [])) ∧
    (∀ (st : HandlerState) (emid : String), st.is_done = true →
      handleStopGenerating mid st emid = (st, [])) := by
  have main : ∀ a : Effect, a = Effect.offStop ∨ a = Effect.releaseCb →
      (runFull prov mid items fault).2.count a = 1 ∧
      (runFull prov mid items fault).1.is_done = true := by
    intro a ha
    have hloop := runItems_count prov mid a ha items initState
    have hinit : indDone initState = 0 := rfl
    cases fault with
    | none =>
        rw [runFull_none]
        have hdisp := disposeStep_count a ha (runItems prov mid initState items).1
        have hmid0 : List.count a
            [Effect.finalUpdate (runItems prov mid initState items).1.message_text,
             Effect.clearEvent] = 0 := by
          rw [List.count_eq_zero]
          intro hmem
          rcases ha with h | h <;> subst h <;> simp at hmem
        refine ⟨?_, hdisp.1⟩
        simp only [List.count_append, hmid0]
        omega
    | some e =>
        rw [runFull_some]
        have herr := handleError_count a ha (runItems prov mid initState items).1 e
        have hdisp := disposeStep_count a ha (handleError (runItems prov mid initState items).1 e).1
        refine ⟨?_, hdisp.1⟩
        have h1 : indDone (handleError (runItems prov mid initState items).1 e).1 = 1 := by
          rw [indDone, herr.1]; rfl
        simp only [List.count_append]
        omega
  refine ⟨(main Effect.offStop (Or.inl rfl)).1, (main Effect.releaseCb (Or.inr rfl)).1,
    (main Effect.offStop (Or.inl rfl)).2, ?_, ?_⟩
  · intro st h
    simp [disposeStep, h]
  · intro st emid h
    exact handleStopGenerating_noop mid st emid (Or.inl h)

/-- C1 witness: disposal and stop delivery are no-ops on a concrete
already-disposed state. -/
theorem claim_C1_idempotent_disposal_witness :
    disposeStep ⟨"x", 1, true, 7⟩ = (⟨"x", 1, true, 7⟩, []) ∧
    handleStopGenerating "m1" ⟨"x", 1, true, 7⟩ "m1" = (⟨"x", 1, true, 7⟩, []) :=
  ⟨(claim_C1_idempotent_disposal okProv "m1" [] none).2.2.2.1 _ rfl,
   (claim_C1_idempotent_disposal okProv "m1" [] none).2.2.2.2 _ "m1" rfl⟩

/-- C8: when pulling from the stream faults after any chunk-only
prefix, the caught fault yields exactly one `AI_STATE_ERROR` status
event, the last outbound message update carries the error string
derived from the fault (overwriting any partial text), no status-clear
event is ever sent, the run ends disposed, and fault handling on an
already-disposed run does nothing. -/
theorem claim_C8_stream_fault (prov : Provider) (mid : String) (cs : List Chunk)
    (e : JsError) :
    (runFull prov mid (cs.map StreamItem.chunk) (some e)).2.count
      (Effect.statusUpdate "AI_STATE_ERROR") = 1 ∧
    ((runFull prov mid (cs.map StreamItem.chunk) (some e)).2.filterMap updateText).getLast? =
      some ("Error: " ++ e.message.getD "Error generating the message") ∧
    Effect.clearEvent ∉ (runFull prov mid (cs.map StreamItem.chunk) (some e)).2 ∧
    (runFull prov mid (cs.map StreamItem.chunk) (some e)).1.is_done = true ∧
    (∀ st : HandlerState, st.is_done = true → handleError st e = (st, [])) := by
  have hdone : (runItems prov mid initState (cs.map StreamItem.chunk)).1.is_done = false := by
    rw [runChunks_is_done]; rfl
  have herr : handleError (runItems prov mid initState (cs.map StreamItem.chunk)).1 e =
      ({ (runItems prov mid initState (cs.map StreamItem.chunk)).1 with is_done := true },
       [Effect.statusUpdate "AI_STATE_ERROR",
        Effect.errorUpdate ("Error: " ++ e.message.getD "Error generating the message"),
        Effect.offStop, Effect.releaseCb]) := by
    simp [handleError, disposeStep, hdone]
  rw [runFull_some, herr]
  have hdisp : disposeStep
      ({ (runItems prov mid initState (cs.map StreamItem.chunk)).1 with is_done := true }) =
      ({ (runItems prov mid initState (cs.map StreamItem.chunk)).1 with is_done := true }, []) := by
    simp [disposeStep]
  rw [hdisp]
  refine ⟨?_, ?_, ?_, rfl, ?_⟩
  · have h0 : Effect.statusUpdate "AI_STATE_ERROR" ∉
        (runItems prov mid initState (cs.map StreamItem.chunk)).2 := by
      intro hmem
      rcases runChunks_effs_shape prov mid cs initState _ hmem with ⟨q, hq⟩ | hq | ⟨t, n, hq⟩
      · cases hq
      · exact absurd hq (by decide)
      · cases hq
    simp only [List.count_append, List.count_eq_zero.mpr h0]
    simp [List.count_cons, beq_iff_eq]
  · simp only [List.filterMap_append]
    have hm : [Effect.statusUpdate "AI_STATE_ERROR",
        Effect.errorUpdate ("Error: " ++ e.message.getD "Error generating the message"),
        Effect.offStop, Effect.releaseCb].filterMap updateText =
        ["Error: " ++ e.message.getD "Error generating the message"] := by
      simp [updateText]
    rw [hm]
    simp only [List.filterMap_nil, List.append_nil]
    exact List.getLast?_concat _
  · intro hmem
    simp only [List.append_nil, List.mem_append] at hmem
    rcases hmem with h | h
    · rcases runChunks_effs_shape prov mid cs initState _ h with ⟨q, hq⟩ | hq | ⟨t, n, hq⟩
      · cases hq
      · cases hq
      · cases hq
    · simp at h
  · intro st h
    simp [handleError, h]

/-- C8 witness: fault handling is a no-op on a concrete
already-disposed state. -/
theorem claim_C8_stream_fault_witness :
    handleError ⟨"partial", 1, true, 5000⟩ ⟨some "boom"⟩ =
      (⟨"partial", 1, true, 5000⟩, []) :=
  (claim_C8_stream_fault okProv "m1" [⟨[], "partial", 5000⟩] ⟨some "boom"⟩).2.2.2.2 _ rfl

/-- C2: on every finite chunk sequence processed without a stream
fault, the texts of the outbound message updates, in send order, form a
prefix-extension chain (each at least as long as its predecessor), and
the final unconditional update's text — which is also the last update
sent — equals the concatenation, in stream order, of every text
fragment carried by every chunk. -/
theorem claim_C2_prefix_growth (prov : Provider) (mid : String) (cs : List Chunk) :
    List.Chain' textExtends
      ((runFull prov mid (cs.map StreamItem.chunk) none).2.filterMap updateText) ∧
    Effect.finalUpdate (concatTexts cs) ∈ (runFull prov mid (cs.map StreamItem.chunk) none).2 ∧
    ((runFull prov mid (cs.map StreamItem.chunk) none).2.filterMap updateText).getLast? =
      some (concatTexts cs) := by
  have hmsg : (runItems prov mid initState (cs.map StreamItem.chunk)).1.message_text =
      concatTexts cs := by
    rw [runChunks_message_text]
    exact String.empty_append _
  rw [runFull_none, runChunks_final_dispose]
  have hfm : ((runItems prov mid initState (cs.map StreamItem.chunk)).2 ++
      [Effect.finalUpdate (runItems prov mid initState (cs.map StreamItem.chunk)).1.message_text,
       Effect.clearEvent] ++ [Effect.offStop, Effect.releaseCb]).filterMap updateText =
      (runItems prov mid initState (cs.map StreamItem.chunk)).2.filterMap updateText ++
        [concatTexts cs] := by
    simp [List.filterMap_append, updateText, hmsg]
  refine ⟨?_, ?_, ?_⟩
  · rw [hfm]
    have hchain := runChunks_text_chain prov mid cs initState
    rw [hmsg] at hchain
    exact hchain.tail
  · rw [hmsg]
    simp
  · rw [hfm]
    exact List.getLast?_concat _

/-- C5: on every faultless chunk-only run, the wall-clock send times of
consecutive non-final text updates differ by at least 1000ms (the code
in fact requires strictly more than 1000ms); moreover a chunk's text
triggers an in-loop flush only when at least 1000ms have elapsed since
`last_update_time`, and the flush is stamped with the chunk's clock
value. -/
theorem claim_C5_throttle_bound (prov : Provider) (mid : String) (cs : List Chunk) :
    List.Chain' (fun t t' => t + 1000 ≤ t')
      ((runFull prov mid (cs.map StreamItem.chunk) none).2.filterMap flushTime) ∧
    (∀ (st : HandlerState) (c : Chunk) (txt : String) (t : Nat),
      Effect.flushUpdate txt t ∈ (processChunk prov st c).2 →
      st.last_update_time + 1000 ≤ c.now ∧ t = c.now) := by
  constructor
  · rw [runFull_none, runChunks_final_dispose]
    have hfm : ((runItems prov mid initState (cs.map StreamItem.chunk)).2 ++
        [Effect.finalUpdate (runItems prov mid initState (cs.map StreamItem.chunk)).1.message_text,
         Effect.clearEvent] ++ [Effect.offStop, Effect.releaseCb]).filterMap flushTime =
        (runItems prov mid initState (cs.map StreamItem.chunk)).2.filterMap flushTime := by
      simp [List.filterMap_append, flushTime]
    rw [hfm]
    have hchain := runChunks_time_chain prov mid cs initState
    exact (hchain.imp (fun a b h => le_of_lt h)).tail
  · intro st c txt t hmem
    have hmem' : t ∈ (processChunk prov st c).2.filterMap flushTime :=
      List.mem_filterMap.mpr ⟨Effect.flushUpdate txt t, hmem, rfl⟩
    rw [processChunk_flushTimes] at hmem'
    by_cases hf : c.text ≠ "" ∧ st.last_update_time + 1000 < c.now
    · rw [if_pos hf] at hmem'
      have ht : t = c.now := List.mem_singleton.mp hmem'
      exact ⟨le_of_lt hf.2, ht⟩
    · rw [if_neg hf] at hmem'
      simp at hmem'

/-- Calls that all fail the dispatch guard produce no effects and no
outputs. -/
theorem dispatchCalls_skip (prov : Provider) :
    ∀ calls : List FunctionCall, (∀ fc ∈ calls, webSearchGuard fc = false) →
      dispatchCalls prov calls = ([], []) := by
  intro calls
  induction calls with
  | nil => intro _; rfl
  | cons call rest ih =>
      intro h
      have hg : webSearchGuard call = false := h call (List.mem_cons_self call rest)
      rw [dispatchCalls, if_neg (by rw [hg]; exact Bool.false_ne_true)]
      exact ih (fun fc hfc => h fc (List.mem_cons_of_mem call hfc))

/-- C5 witness: a concrete chunk at clock 2000 flushing against a
zeroed throttle satisfies the gating bound. -/
theorem claim_C5_throttle_bound_witness :
    (⟨"", 0, false, 0⟩ : HandlerState).last_update_time + 1000 ≤
      (⟨[], "hi", 2000⟩ : Chunk).now ∧ (2000 : Nat) = (⟨[], "hi", 2000⟩ : Chunk).now :=
  (claim_C5_throttle_bound okProv "m1" []).2 ⟨"", 0, false, 0⟩ ⟨[], "hi", 2000⟩ "hi" 2000
    (by decide)

/-- C9: a stop event is a no-op for a run that is already disposed or
whose message id differs from the event's target: no effect is emitted
and every state field is unchanged. -/
theorem claim_C9_stop_isolation (mid : String) (st : HandlerState) (emid : String)
    (h : st.is_done = true ∨ emid ≠ mid) :
    handleStopGenerating mid st emid = (st, []) :=
  handleStopGenerating_noop mid st emid h

/-- C9 witness: a stop aimed at message `m2` delivered to the live run
owning `m1` changes nothing. -/
theorem claim_C9_stop_isolation_witness :
    handleStopGenerating "m1" ⟨"t", 2, false, 9⟩ "m2" = (⟨"t", 2, false, 9⟩, []) :=
  claim_C9_stop_isolation "m1" ⟨"t", 2, false, 9⟩ "m2" (Or.inr (by decide))

/-- C3 counterexample: in the run owning `m1`, a matching stop event
delivered after the first chunk does emit the clear signal and dispose
(unsubscribe, release), but the loop keeps consuming: the next chunk
still produces a text update, and the end-of-stream final update and a
second clear signal are still sent — two text updates and a status
event occur after the stop was handled, refuting the claimed
abandonment of stream consumption. -/
theorem claim_C3_counterexample :
    (runFull okProv "m1" [StreamItem.chunk ⟨[], "a", 5000⟩, StreamItem.stop "m1",
      StreamItem.chunk ⟨[], "b", 99999⟩] none).2 =
      [Effect.flushUpdate "a" 5000, Effect.clearEvent, Effect.offStop, Effect.releaseCb,
       Effect.flushUpdate "ab" 99999, Effect.finalUpdate "ab", Effect.clearEvent] ∧
    ((runFull okProv "m1" [StreamItem.chunk ⟨[], "a", 5000⟩, StreamItem.stop "m1",
      StreamItem.chunk ⟨[], "b", 99999⟩] none).2.dropWhile
        (fun e => e != Effect.releaseCb)).tail.filterMap updateText = ["ab", "ab"] :=
  ⟨rfl, rfl⟩

/-- C3 (amended): a matching stop event on a live run emits the
status-cleared signal and disposes immediately; but chunk processing
never consults the disposal flag, so consumption of later chunks (and
their outbound effects) is unchanged by disposal. -/
theorem claim_C3_stop_disposes_but_consumption_continues (mid : String)
    (st : HandlerState) (emid : String)
    (h1 : st.is_done = false) (h2 : emid = mid) :
    handleStopGenerating mid st emid =
      ({ st with is_done := true },
       [Effect.clearEvent, Effect.offStop, Effect.releaseCb]) ∧
    (∀ (prov : Provider) (st' : HandlerState) (b b' : Bool) (c : Chunk),
      (processChunk prov { st' with is_done := b } c).2 =
      (processChunk prov { st' with is_done := b' } c).2) := by
  refine ⟨handleStopGenerating_fires mid st emid h1 h2, ?_⟩
  intro prov st' b b' c
  by_cases hc1 : c.text = ""
  · simp [processChunk, hc1]
  · by_cases hc2 : st'.last_update_time + 1000 < c.now
    · simp [processChunk, hc1, hc2]
    · simp [processChunk, hc1, hc2]

/-- C3 amended witness: the stop handler on a concrete live run
disposes at once and emits exactly the clear signal. -/
theorem claim_C3_stop_disposes_witness :
    handleStopGenerating "m1" ⟨"a", 1, false, 5000⟩ "m1" =
      (⟨"a", 1, true, 5000⟩, [Effect.clearEvent, Effect.offStop, Effect.releaseCb]) :=
  (claim_C3_stop_disposes_but_consumption_continues "m1" ⟨"a", 1, false, 5000⟩ "m1" rfl rfl).1

/-- C4 counterexample: a chunk carrying one observed tool call that is
not a recognized `web_search`-with-arguments call (here a call named
`calculator`, and also a `web_search` call with absent arguments)
yields an empty output list — the observed calls are left without any
result, refuting "no observed tool call is left without a result". -/
theorem claim_C4_counterexample :
    ([(⟨some "calculator", JsValue.vObj [("expr", JsValue.vStr "1+1")]⟩ : FunctionCall)].length
      = 1) ∧
    (handleFunctionCalls okProv
      [⟨some "calculator", JsValue.vObj [("expr", JsValue.vStr "1+1")]⟩]).2 = [] ∧
    (handleFunctionCalls okProv [⟨some "web_search", JsValue.vUndefined⟩]).2 = [] :=
  ⟨rfl, rfl, rfl⟩

/-- Outputs of the dispatch loop: exactly one per guarded call, in
order, each carrying that call and the packaged outcome of its provider
invocation. -/
theorem dispatchCalls_outputs (prov : Provider) :
    ∀ calls : List FunctionCall,
      ((dispatchCalls prov calls).2.map ToolOutput.functionCall =
        calls.filter (fun c => webSearchGuard c)) ∧
      (∀ out ∈ (dispatchCalls prov calls).2,
        out.response = resToJson (prov (extractQuery out.functionCall.args))) := by
  intro calls
  induction calls with
  | nil => exact ⟨rfl, by intro out hout; simp [dispatchCalls] at hout⟩
  | cons call rest ih =>
      by_cases hg : webSearchGuard call
      · constructor
        · rw [dispatchCalls, if_pos hg, List.map_cons, ih.1, List.filter_cons, if_pos hg]
        · intro out hout
          rw [dispatchCalls, if_pos hg] at hout
          rcases List.mem_cons.mp hout with h | h
          · rw [h]
          · exact ih.2 out h
      · have hg' : webSearchGuard call = false := by
          revert hg; cases webSearchGuard call <;> simp
        constructor
        · rw [dispatchCalls, if_neg hg, ih.1, List.filter_cons, hg']
          rfl
        · intro out hout
          rw [dispatchCalls, if_neg hg] at hout
          exact ih.2 out hout

/-- C4 (amended): every dispatched call — one whose name is
`web_search` and whose argument payload is present (truthy) — yields
exactly one result associated back to that originating call, in stream
order; calls failing that guard are skipped and yield no result. -/
theorem claim_C4_dispatched_results (prov : Provider) (calls : List FunctionCall) :
    ((handleFunctionCalls prov calls).2.map ToolOutput.functionCall =
      calls.filter (fun c => webSearchGuard c)) ∧
    (∀ out ∈ (handleFunctionCalls prov calls).2,
      out.response = resToJson (prov (extractQuery out.functionCall.args))) :=
  dispatchCalls_outputs prov calls

/-- C4 amended witness: on a concrete dispatched call the recorded
response is the packaged provider outcome. -/
theorem claim_C4_dispatched_results_witness :
    ({ functionCall := ⟨some "web_search", JsValue.vObj [("query", JsValue.vStr "cats")]⟩,
       response := JsValue.vNull } : ToolOutput).response =
      resToJson (okProv (extractQuery
        (JsValue.vObj [("query", JsValue.vStr "cats")]))) :=
  (claim_C4_dispatched_results okProv
    [⟨some "web_search", JsValue.vObj [("query", JsValue.vStr "cats")]⟩]).2
    _ (List.mem_singleton.mpr rfl)

/-- C6: the query passed to the provider for a `web_search` call is the
`query` field when it is a string; the `String` coercion of a `query`
field that is neither a string, `null` nor `undefined`; the JSON
serialization of the whole payload when it has no `query` field; and
the `String` coercion of a non-object payload.  In particular
`\x7bquery:"cats"\x7d` yields `cats` and `\x7bq:"cats"\x7d` yields its
serialization. -/
theorem claim_C6_argument_extraction :
    (∀ (fields : List (String × JsValue)) (s : String),
      getFieldD (JsValue.vObj fields) "query" = JsValue.vStr s →
      extractQuery (JsValue.vObj fields) = s) ∧
    (∀ (fields : List (String × JsValue)) (q : JsValue),
      getFieldD (JsValue.vObj fields) "query" = q →
      typeofJs q ≠ "string" → q ≠ JsValue.vNull → q ≠ JsValue.vUndefined →
      extractQuery (JsValue.vObj fields) = jsToString q) ∧
    (∀ fields : List (String × JsValue),
      fields.lookup "query" = none →
      extractQuery (JsValue.vObj fields) = jsonStringify (JsValue.vObj fields)) ∧
    (∀ p : JsValue, typeofJs p ≠ "object" → extractQuery p = jsToString p) ∧
    extractQuery (JsValue.vObj [("query", JsValue.vStr "cats")]) = "cats" ∧
    extractQuery (JsValue.vObj [("q", JsValue.vStr "cats")]) = "\x7b\"q\":\"cats\"\x7d" := by
  refine ⟨?_, ?_, ?_, ?_, rfl, rfl⟩
  · intro fields s h
    rw [show extractQuery (JsValue.vObj fields) =
        (match getFieldD (JsValue.vObj fields) "query" with
         | JsValue.vStr s => s
         | JsValue.vNull => jsonStringify (JsValue.vObj fields)
         | JsValue.vUndefined => jsonStringify (JsValue.vObj fields)
         | q => jsToString q) from rfl, h]
  · intro fields q h h2 h3 h4
    rw [show extractQuery (JsValue.vObj fields) =
        (match getFieldD (JsValue.vObj fields) "query" with
         | JsValue.vStr s => s
         | JsValue.vNull => jsonStringify (JsValue.vObj fields)
         | JsValue.vUndefined => jsonStringify (JsValue.vObj fields)
         | q => jsToString q) from rfl, h]
    cases q with
    | vStr s => exact absurd rfl h2
    | vNull => exact absurd rfl h3
    | vUndefined => exact absurd rfl h4
    | vBool b => rfl
    | vNum n => rfl
    | vObj fs => rfl
  · intro fields h
    rw [show extractQuery (JsValue.vObj fields) =
        (match getFieldD (JsValue.vObj fields) "query" with
         | JsValue.vStr s => s
         | JsValue.vNull => jsonStringify (JsValue.vObj fields)
         | JsValue.vUndefined => jsonStringify (JsValue.vObj fields)
         | q => jsToString q) from rfl,
      show getFieldD (JsValue.vObj fields) "query" =
        (fields.lookup "query").getD JsValue.vUndefined from rfl, h]
    rfl
  · intro p h
    cases p with
    | vNull => exact absurd rfl h
    | vObj fs => exact absurd rfl h
    | vUndefined => rfl
    | vBool b => rfl
    | vNum n => rfl
    | vStr s => rfl

/-- C6 witness: the four extraction branches instantiated on concrete
payloads. -/
theorem claim_C6_argument_extraction_witness :
    extractQuery (JsValue.vObj [("query", JsValue.vStr "dogs")]) = "dogs" ∧
    extractQuery (JsValue.vObj [("query", JsValue.vNum 5)]) = jsToString (JsValue.vNum 5) ∧
    extractQuery (JsValue.vObj [("k", JsValue.vNum 1)]) =
      jsonStringify (JsValue.vObj [("k", JsValue.vNum 1)]) ∧
    extractQuery (JsValue.vStr "hi") = jsToString (JsValue.vStr "hi") :=
  ⟨claim_C6_argument_extraction.1 _ "dogs" rfl,
   claim_C6_argument_extraction.2.1 _ (JsValue.vNum 5) rfl (by decide)
     (fun h => JsValue.noConfusion h) (fun h => JsValue.noConfusion h),
   claim_C6_argument_extraction.2.2.1 _ rfl,
   claim_C6_argument_extraction.2.2.2.1 _ (by decide)⟩

/-- C7: a provider fault on a dispatched `web_search` call is caught in
the dispatcher and recorded as the structured error result for that
call; and the run's state and full effect trace are identical whatever
the provider returns or raises, so stream consumption continues
unaffected and no provider fault ever reaches `run`'s boundary. -/
theorem claim_C7_contained_tool_failure :
    (∀ (prov : Provider) (calls : List FunctionCall) (c : FunctionCall),
      c ∈ calls → webSearchGuard c = true →
      prov (extractQuery c.args) = Except.error () →
      ({ functionCall := c,
         response := JsValue.vObj [("error", JsValue.vStr "failed to call tool")] } :
        ToolOutput) ∈ (handleFunctionCalls prov calls).2) ∧
    (∀ (prov prov' : Provider) (mid : String) (items : List StreamItem)
      (fault : Option JsError),
      runFull prov mid items fault = runFull prov' mid items fault) := by
  constructor
  · intro prov calls
    induction calls with
    | nil => intro c hc _ _; simp at hc
    | cons call rest ih =>
        intro c hc hg herr
        have hout : (handleFunctionCalls prov (call :: rest)).2 =
            (dispatchCalls prov (call :: rest)).2 := rfl
        rw [hout]
        rcases List.mem_cons.mp hc with hhead | hmem
        · subst hhead
          rw [dispatchCalls, if_pos hg, herr]
          exact List.mem_cons_self _ _
        · have h := ih c hmem hg herr
          rw [show (handleFunctionCalls prov rest).2 = (dispatchCalls prov rest).2 from rfl] at h
          by_cases hgc : webSearchGuard call
          · rw [dispatchCalls, if_pos hgc]
            exact List.mem_cons_of_mem _ h
          · rw [dispatchCalls, if_neg hgc]
            exact h
  · intro prov prov' mid items fault
    cases fault with
    | none => rw [runFull_none, runFull_none, runItems_prov prov prov' mid items]
    | some e => rw [runFull_some, runFull_some, runItems_prov prov prov' mid items]

/-- C7 witness: a concrete faulting provider produces the structured
error output for its call. -/
theorem claim_C7_contained_tool_failure_witness :
    ({ functionCall := ⟨some "web_search", JsValue.vObj [("query", JsValue.vStr "cats")]⟩,
       response := JsValue.vObj [("error", JsValue.vStr "failed to call tool")] } :
      ToolOutput) ∈ (handleFunctionCalls errProv
        [⟨some "web_search", JsValue.vObj [("query", JsValue.vStr "cats")]⟩]).2 :=
  claim_C7_contained_tool_failure.1 errProv _ _ (List.mem_singleton.mpr rfl) rfl rfl

/-- C10: a chunk carrying at least one function call emits the
`AI_STATE_EXTERNAL_SOURCES` status event first, and exactly once; and
when none of its calls passes the dispatch guard, the chunk yields no
tool outputs and invokes no provider — yet the status event is still
signaled. -/
theorem claim_C10_external_sources_status (prov : Provider) (st : HandlerState) (c : Chunk)
    (h : c.functionCalls ≠ []) :
    (processChunk prov st c).2.head? =
      some (Effect.statusUpdate "AI_STATE_EXTERNAL_SOURCES") ∧
    (processChunk prov st c).2.count (Effect.statusUpdate "AI_STATE_EXTERNAL_SOURCES") = 1 ∧
    ((∀ fc ∈ c.functionCalls, webSearchGuard fc = false) →
      (handleFunctionCalls prov c.functionCalls).2 = [] ∧
      ∀ q, Effect.providerCall q ∉ (processChunk prov st c).2) := by
  have hlen : c.functionCalls.length > 0 := List.length_pos.mpr h
  have hd0 : (dispatchCalls prov c.functionCalls).1.count
      (Effect.statusUpdate "AI_STATE_EXTERNAL_SOURCES") = 0 := by
    rw [List.count_eq_zero]
    intro hmem
    obtain ⟨q, hq⟩ := dispatchCalls_effs_shape prov c.functionCalls _ hmem
    cases hq
  have hflush0 : (if c.text ≠ "" ∧ st.last_update_time + 1000 < c.now
      then [Effect.flushUpdate (st.message_text ++ c.text) c.now] else []).count
      (Effect.statusUpdate "AI_STATE_EXTERNAL_SOURCES") = 0 := by
    by_cases hf : c.text ≠ "" ∧ st.last_update_time + 1000 < c.now
    · rw [if_pos hf]; rfl
    · rw [if_neg hf]; rfl
  refine ⟨?_, ?_, ?_⟩
  · rw [processChunk_effects, if_pos hlen]
    rfl
  · rw [processChunk_effects, if_pos hlen, List.count_append, hflush0]
    simp [handleFunctionCalls, List.count_cons, hd0, beq_iff_eq]
  · intro hskip
    have hs := dispatchCalls_skip prov c.functionCalls hskip
    have htool : (handleFunctionCalls prov c.functionCalls).1 =
        [Effect.statusUpdate "AI_STATE_EXTERNAL_SOURCES"] := by
      rw [handleFunctionCalls, hs]
    constructor
    · rw [show (handleFunctionCalls prov c.functionCalls).2 =
        (dispatchCalls prov c.functionCalls).2 from rfl, hs]
    · intro q hmem
      rw [processChunk_effects, if_pos hlen, htool] at hmem
      rcases List.mem_append.mp hmem with hm | hm
      · simp at hm
      · by_cases hf : c.text ≠ "" ∧ st.last_update_time + 1000 < c.now
        · rw [if_pos hf] at hm
          simp at hm
        · rw [if_neg hf] at hm
          simp at hm

/-- C10 witness: a chunk whose only call is an unrecognized
`calculator` still signals the external-sources status first, and
yields no tool output. -/
theorem claim_C10_external_sources_status_witness :
    (processChunk okProv ⟨"", 0, false, 0⟩
        ⟨[⟨some "calculator", JsValue.vStr "x"⟩], "", 0⟩).2.head? =
      some (Effect.statusUpdate "AI_STATE_EXTERNAL_SOURCES") ∧
    (handleFunctionCalls okProv
        ((⟨[⟨some "calculator", JsValue.vStr "x"⟩], "", 0⟩ : Chunk).functionCalls)).2 = [] :=
  ⟨(claim_C10_external_sources_status okProv ⟨"", 0, false, 0⟩
      ⟨[⟨some "calculator", JsValue.vStr "x"⟩], "", 0⟩ (by simp)).1,
   ((claim_C10_external_sources_status okProv ⟨"", 0, false, 0⟩
      ⟨[⟨some "calculator", JsValue.vStr "x"⟩], "", 0⟩ (by simp)).2.2
      (by intro fc hfc; rw [List.mem_singleton.mp hfc]; rfl)).1⟩

end AIChat
